import Mathlib

set_option maxHeartbeats 1000000

/-!
Verification development for the Twilio ↔ OpenAI realtime voice bridge
(`main_fastapi.py` and `app/services/openai_realtime.py`).

Conventions of the shallow embedding:
* byte strings are `List Nat` with each element `< 256`;
* base64 text is modelled as `String` (via its character list);
* machine integers are `Int`/`Nat` with explicit wrapping where the code wraps;
* the per-call mutable state of `media_socket` becomes an explicit record,
  and each concurrent loop body becomes a pure step function from state and
  incoming event to new state plus the list of observable side effects
  (messages sent on either socket), in the order the code performs them.
-/

/- ===================== Base64 (Python base64.b64encode / b64decode) ============= -/

/-- The standard base64 alphabet; index `n` holds the character for sextet `n`. -/
def b64alphabet : List Char :=
  ("ABCDEFGHIJKLMNOPQRSTUVWXYZabcdefghijklmnopqrstuvwxyz0123456789+/").toList

/-- Character for a sextet value (`n < 64`). -/
def sextetChar (n : Nat) : Char := b64alphabet.getD n '='

/-- Value of a base64 alphabet character (64 for characters outside the alphabet). -/
def charVal (c : Char) : Nat := b64alphabet.indexOf c

/-- Standard base64 encoding of a byte list, producing the character stream with
trailing padding, as Python's `base64.b64encode` does. -/
def b64encodeL : List Nat → List Char
  | [] => []
  | [a] => [sextetChar (a / 4), sextetChar (a % 4 * 16), '=', '=']
  | [a, b] => [sextetChar (a / 4), sextetChar (a % 4 * 16 + b / 16),
               sextetChar (b % 16 * 4), '=']
  | a :: b :: c :: rest =>
      sextetChar (a / 4) :: sextetChar (a % 4 * 16 + b / 16) ::
      sextetChar (b % 16 * 4 + c / 64) :: sextetChar (c % 64) :: b64encodeL rest

/-- Base64 encoding into a `String`, as the Python helpers return. -/
def b64encode (bs : List Nat) : String := ⟨b64encodeL bs⟩

/-- The sextet stream of the encoding of a byte list (no padding). -/
def encSextets : List Nat → List Nat
  | [] => []
  | [a] => [a / 4, a % 4 * 16]
  | [a, b] => [a / 4, a % 4 * 16 + b / 16, b % 16 * 4]
  | a :: b :: c :: rest =>
      (a / 4) :: (a % 4 * 16 + b / 16) :: (b % 16 * 4 + c / 64) :: (c % 64) ::
      encSextets rest

/-- Decode a stream of sextet values (padding already stripped) into bytes. -/
def b64decodeVals : List Nat → List Nat
  | [v1, v2] => [v1 * 4 + v2 / 16]
  | [v1, v2, v3] => [v1 * 4 + v2 / 16, v2 % 16 * 16 + v3 / 4]
  | v1 :: v2 :: v3 :: v4 :: rest =>
      (v1 * 4 + v2 / 16) :: (v2 % 16 * 16 + v3 / 4) :: (v3 % 4 * 64 + v4) ::
      b64decodeVals rest
  | _ => []

/-- Base64 decoding of a string: drop padding, map characters to sextets, pack. -/
def b64decode (s : String) : List Nat :=
  b64decodeVals ((s.data.filter (fun c => c ≠ '=')).map charVal)

/- ===================== ulaw_silence_b64 (main_fastapi.py lines 54-57) =========== -/

/-- Model of `ulaw_silence_b64`: base64 frame of μ-law silence bytes (0xFF),
`8_000 * ms // 1000` bytes. -/
def ulaw_silence_b64 (ms : Nat) : String :=
  b64encode (List.replicate (8000 * ms / 1000) 0xFF)

/-- The pacer's keepalive frame `SILENCE_20 = ulaw_silence_b64(20)`
(main_fastapi.py line 245). -/
def SILENCE_20 : String := ulaw_silence_b64 20

/- ===================== Per-call bridge model (main_fastapi.py media_socket) ===== -/

/-- Fields of the `turn_detection` object sent inside `session.update`
(main_fastapi.py lines 310-315). The `boolF` shape is the vocabulary a
boolean field such as `create_response` would use; the code never builds one. -/
inductive TDField where
  | strF (key : String) (value : String)
  | intF (key : String) (value : Int)
  | boolF (key : String) (value : Bool)
deriving DecidableEq, Repr

/-- Key of a `turn_detection` field. -/
def tdKey : TDField → String
  | .strF k _ => k
  | .intF k _ => k
  | .boolF k _ => k

/-- The `session.update` payload (main_fastapi.py lines 307-326); these are all
the fields the code ever includes. -/
structure OaiSession where
  turn_detection : List TDField
  input_audio_format : String
  output_audio_format : String
  voice : String
  modalities : List String
  instructions : String
  temperature : ℚ
deriving DecidableEq, Repr

/-- Commands the bridge sends on the OpenAI realtime socket. -/
inductive OaiCmd where
  | sessionUpdate (s : OaiSession)
  | inputAppend (audio : String)
  | inputCommit
  | responseCreate (instructions : Option String)
  | responseCancel
deriving DecidableEq, Repr

/-- Observable side effects of one handler step, in program order.
`twilioClear` is the telephony protocol's distinct clear-playback-buffer
message; the constructor exists so that its absence is expressible. -/
inductive BAction where
  | oai (cmd : OaiCmd)
  | twilioMedia (payload : String)
  | twilioClear
  | closeOai
  | closeTwilio
deriving DecidableEq, Repr

/-- The per-call mutable state of `media_socket` (lines 206-226). The wall-clock
timestamps are abstracted to the booleans the control flow tests:
`pending_audio` is `pending_audio_since != 0`, `had_audio` is
`last_audio_rx_ts != 0`. -/
structure BridgeState where
  stream_sid : Option String
  speaking_out : Bool
  barge_cancel_sent : Bool
  user_ms_since_last_commit : Nat
  user_ms_while_bot_talking : Nat
  pending_audio : Bool
  had_audio : Bool
  queue : List String
deriving DecidableEq, Repr

/-- State at session start (lines 206-226). -/
def initialBridgeState : BridgeState :=
  { stream_sid := none, speaking_out := false, barge_cancel_sent := false,
    user_ms_since_last_commit := 0, user_ms_while_bot_talking := 0,
    pending_audio := false, had_audio := false, queue := [] }

/-- Twilio Media Streams frames are counted as 20 ms each (line 219). -/
def USER_FRAME_MS : Nat := 20

/-- Minimum user speech during TTS before barge-in cancel (line 223). -/
def BARGE_MIN_USER_MS : Nat := 120

/-- Minimum buffered audio before a commit may be sent (line 224). -/
def COMMIT_MIN_MS : Nat := 120

/-- Messages received on the Twilio media websocket (lines 356-408). -/
inductive TwEvent where
  | start (sid : String)
  | media (payload : String)
  | mark
  | stop
  | unknown
deriving DecidableEq, Repr

/-- Events received on the OpenAI socket that the handler distinguishes
(lines 433-473); `unrelated` stands for every other event type. -/
inductive OaiEvent where
  | error
  | speech_started
  | speech_stopped
  | audioDelta (payload : Option String)
  | response_done
  | unrelated
deriving DecidableEq, Repr

/-- Handler for one Twilio `media` frame (twilio_to_openai, lines 360-397):
account the incoming 20 ms; if the bot is speaking, no cancel was sent yet and
at least 120 ms of user audio overlapped the TTS, send `response.cancel`, drain
the outbound queue synchronously and clear the speaking flags; then forward the
frame with `input_audio_buffer.append` and arm `pending_audio_since`. -/
def handleMedia (s : BridgeState) (payload : String) : BridgeState × List BAction :=
  let s1 := { s with had_audio := true,
                     user_ms_since_last_commit :=
                       s.user_ms_since_last_commit + USER_FRAME_MS,
                     user_ms_while_bot_talking :=
                       if s.speaking_out then
                         s.user_ms_while_bot_talking + USER_FRAME_MS
                       else s.user_ms_while_bot_talking }
  let bargeNow := s1.speaking_out && !s1.barge_cancel_sent &&
      decide (BARGE_MIN_USER_MS ≤ s1.user_ms_while_bot_talking)
  let s2 := if bargeNow then
      { s1 with barge_cancel_sent := true, queue := [], speaking_out := false,
                user_ms_while_bot_talking := 0 }
    else s1
  let acts := (if bargeNow then [BAction.oai OaiCmd.responseCancel] else []) ++
      [BAction.oai (OaiCmd.inputAppend payload)]
  let s3 := if s2.pending_audio then s2 else { s2 with pending_audio := true }
  (s3, acts)

/-- One iteration of the twilio_to_openai receive loop (lines 350-408). The
final boolean is false exactly when the loop breaks; on `stop` the OpenAI
socket is closed and the loop ends. -/
def handleTwEvent (s : BridgeState) (e : TwEvent) :
    BridgeState × List BAction × Bool :=
  match e with
  | .start sid => ({ s with stream_sid := some sid }, [], true)
  | .media payload =>
      let (s', acts) := handleMedia s payload
      (s', acts, true)
  | .mark => (s, [], true)
  | .stop => (s, [BAction.closeOai], false)
  | .unknown => (s, [], true)

/-- Handler for one OpenAI event (openai_to_twilio, lines 427-473): errors and
`speech_started` only log; `speech_stopped` commits and creates a response only
when at least `COMMIT_MIN_MS` accumulated; audio deltas are enqueued and set
`speaking_out`; response completion clears the speaking/barge flags. -/
def handleOaiEvent (s : BridgeState) (e : OaiEvent) : BridgeState × List BAction :=
  match e with
  | .error => (s, [])
  | .speech_started => (s, [])
  | .speech_stopped =>
      if COMMIT_MIN_MS ≤ s.user_ms_since_last_commit then
        ({ s with user_ms_since_last_commit := 0, pending_audio := false },
         [BAction.oai OaiCmd.inputCommit,
          BAction.oai (OaiCmd.responseCreate none)])
      else (s, [])
  | .audioDelta payload =>
      match payload with
      | none => (s, [])
      | some b64 =>
          ({ s with speaking_out := true, queue := s.queue ++ [b64] }, [])
  | .response_done =>
      ({ s with speaking_out := false, barge_cancel_sent := false,
                user_ms_while_bot_talking := 0 }, [])
  | .unrelated => (s, [])

/-- One 200 ms wakeup of forced_committer (lines 264-290). The wall-clock
threshold comparisons are abstracted by the oracle booleans `inact` (0.8 s
since input began) and `gap` (0.6 s without incoming frames). -/
def forcedTick (s : BridgeState) (inact gap : Bool) : BridgeState × List BAction :=
  let p1 :=
    if s.pending_audio && inact then
      if COMMIT_MIN_MS ≤ s.user_ms_since_last_commit then
        ({ s with user_ms_since_last_commit := 0, pending_audio := false },
         [BAction.oai OaiCmd.inputCommit,
          BAction.oai (OaiCmd.responseCreate none)])
      else (s, [])
    else (s, [])
  let s1 := p1.1
  let p2 :=
    if s1.had_audio && gap && s1.pending_audio then
      if COMMIT_MIN_MS ≤ s1.user_ms_since_last_commit then
        ({ s1 with user_ms_since_last_commit := 0, pending_audio := false },
         [BAction.oai OaiCmd.inputCommit,
          BAction.oai (OaiCmd.responseCreate none)])
      else ({ s1 with pending_audio := false }, [])
    else (s1, [])
  (p2.1, p1.2 ++ p2.2)

/-- One iteration of paced_sender (lines 240-253): dequeue the next frame if
one is queued, else synthesize the 20 ms silence keepalive. The dequeue does
not consult any turn state. -/
def paceStep (s : BridgeState) : BridgeState × BAction :=
  match s.queue with
  | [] => (s, BAction.twilioMedia SILENCE_20)
  | b :: rest => ({ s with queue := rest }, BAction.twilioMedia b)

/-- Model of `_twilio_send_ulaw_b64` (lines 228-238): when the Twilio websocket
is not in the CONNECTED state the function returns without sending. -/
def twilioSend (connected : Bool) (payload : String) : List BAction :=
  if connected then [BAction.twilioMedia payload] else []

/-- The per-call profile values extracted from the bot JSON at lines 186-196. -/
structure ResolvedProfile where
  voice : String
  temperature : ℚ
  system_prompt : String
  first_message : String
  model : String
  vad_type : String
  vad_silence_ms : Int
  vad_prefix_ms : Int
deriving DecidableEq, Repr

/-- Fallback instructions used when the profile's system_prompt is empty
(lines 320-323). -/
def defaultInstructions : String :=
  "Eres un asistente de voz en español latino. Saluda breve, sé útil, agenda citas cuando aplique."

/-- The session.update message built at lines 307-326. Its turn_detection
object carries exactly `type`, `silence_duration_ms` and `prefix_padding_ms`. -/
def mkSession (p : ResolvedProfile) : OaiSession :=
  { turn_detection := [TDField.strF ("type") p.vad_type,
                       TDField.intF ("silence_duration_ms") p.vad_silence_ms,
                       TDField.intF ("prefix_padding_ms") p.vad_prefix_ms],
    input_audio_format := ("g711_ulaw"),
    output_audio_format := ("g711_ulaw"),
    voice := p.voice,
    modalities := [("text"), ("audio")],
    instructions := if p.system_prompt = "" then defaultInstructions
                    else p.system_prompt,
    temperature := p.temperature }

/-- Bootstrap control messages sent right after the OpenAI socket opens
(lines 306-339): session.update, then one response.create carrying the literal
first_message as its instructions when the profile has one. -/
def bootstrapCmds (p : ResolvedProfile) : List OaiCmd :=
  [OaiCmd.sessionUpdate (mkSession p)] ++
  (if p.first_message = "" then [OaiCmd.responseCreate none]
   else [OaiCmd.responseCreate (some p.first_message)])

/-- True when a command disables engine auto-response on activity-stop, that
is, it is a session.update whose turn_detection sets create_response false. -/
def disablesAutoResponse : OaiCmd → Bool
  | OaiCmd.sessionUpdate s =>
      s.turn_detection.any fun f =>
        match f with
        | TDField.boolF k v => k == ("create_response") && !v
        | _ => false
  | _ => false

/-- Interleaved events a call can observe after bootstrap: Twilio messages,
OpenAI events, and forced_committer wakeups. -/
inductive BridgeEv where
  | tw (e : TwEvent)
  | oa (e : OaiEvent)
  | tick (inact gap : Bool)
deriving DecidableEq, Repr

/-- A run: the bridge state plus whether the twilio_to_openai loop still runs. -/
structure BridgeRun where
  bs : BridgeState
  alive : Bool
deriving DecidableEq, Repr

/-- Dispatch one event to the handler the code runs for it; after the receive
loop has ended nothing further is processed. -/
def stepEv (r : BridgeRun) (e : BridgeEv) : BridgeRun × List BAction :=
  if r.alive then
    match e with
    | .tw te =>
        let (s', acts, cont) := handleTwEvent r.bs te
        ({ bs := s', alive := cont }, acts)
    | .oa oe =>
        let (s', acts) := handleOaiEvent r.bs oe
        ({ r with bs := s' }, acts)
    | .tick inact gap =>
        let (s', acts) := forcedTick r.bs inact gap
        ({ r with bs := s' }, acts)
  else (r, [])

/-- Process an event list, recording each event with the actions it caused. -/
def runSteps : BridgeRun → List BridgeEv → List (BridgeEv × List BAction)
  | _, [] => []
  | r, e :: es =>
      let (r', acts) := stepEv r e
      (e, acts) :: runSteps r' es

/-- The run state after processing an event list. -/
def runState : BridgeRun → List BridgeEv → BridgeRun
  | r, [] => r
  | r, e :: es => runState (stepEv r e).1 es

/-- A fresh call: initial bridge state, receive loop running. -/
def initialRun : BridgeRun := { bs := initialBridgeState, alive := true }

/-- Chronological log of the OpenAI socket: commands sent and events received. -/
inductive OaiLogEntry where
  | sent (c : OaiCmd)
  | recv (e : OaiEvent)
deriving DecidableEq, Repr

/-- Log contribution of one processed step. -/
def stepLog (e : BridgeEv) (acts : List BAction) : List OaiLogEntry :=
  (match e with
   | BridgeEv.oa oe => [OaiLogEntry.recv oe]
   | _ => []) ++
  acts.filterMap fun a =>
    match a with
    | BAction.oai c => some (OaiLogEntry.sent c)
    | _ => none

/-- The OpenAI-socket log of a whole call: bootstrap commands, then for each
processed event the received engine events and the commands sent in response. -/
def sessionLog (p : ResolvedProfile) (evs : List BridgeEv) : List OaiLogEntry :=
  (bootstrapCmds p).map OaiLogEntry.sent ++
  (runSteps initialRun evs).flatMap fun pr => stepLog pr.1 pr.2

/-- True for a log entry that sends some response.create. -/
def isCreate : OaiLogEntry → Bool
  | OaiLogEntry.sent (OaiCmd.responseCreate _) => true
  | _ => false

/-- A response is in flight when a response.create has been sent and no
response completion has been received since. -/
def inFlight (log : List OaiLogEntry) : Bool :=
  log.foldl (fun acc e =>
    match e with
    | OaiLogEntry.sent (OaiCmd.responseCreate _) => true
    | OaiLogEntry.recv OaiEvent.response_done => false
    | _ => acc) false

/-- A step whose actions include an input_audio_buffer.commit. -/
def commitStep (pr : BridgeEv × List BAction) : Bool :=
  decide (BAction.oai OaiCmd.inputCommit ∈ pr.2)

/-- A step that processed one incoming Twilio media frame. -/
def mediaStep (pr : BridgeEv × List BAction) : Bool :=
  match pr.1 with
  | BridgeEv.tw (TwEvent.media _) => true
  | _ => false

/-- Media frames processed since the last commit-emitting step, starting from a
carried-in count `c`. -/
def mediaSinceCommitFrom (c : Nat) (steps : List (BridgeEv × List BAction)) : Nat :=
  steps.foldl
    (fun acc stp =>
      if commitStep stp then 0 else if mediaStep stp then acc + 1 else acc) c

/-- Media frames processed since the last commit-emitting step. -/
def mediaSinceCommit (steps : List (BridgeEv × List BAction)) : Nat :=
  mediaSinceCommitFrom 0 steps

/-- Setup actions of media_socket before any relaying (lines 172-200). -/
inductive SetupAction where
  | acceptTwilio
  | closeTwilio
  | connectOai (model : String)
deriving DecidableEq, Repr

/-- The prefix of media_socket before the relay loops start (lines 172-200 and
294-303): accept the Twilio websocket; if OPENAI_API_KEY is empty, close it
and return without ever contacting OpenAI; otherwise connect to the realtime
endpoint for the resolved profile's model. -/
def mediaSocketSetup (api_key : String) (modelName : String) : List SetupAction :=
  [SetupAction.acceptTwilio] ++
  (if api_key = "" then [SetupAction.closeTwilio]
   else [SetupAction.connectOai modelName])

/-- The OpenAI commands among a step's actions, in order. -/
def oaiSent (acts : List BAction) : List OaiCmd :=
  acts.filterMap fun a =>
    match a with
    | BAction.oai c => some c
    | _ => none

/-- True for a response.create command. -/
def isCreateCmd : OaiCmd → Bool
  | OaiCmd.responseCreate _ => true
  | _ => false

/-- Every response.create in the list sits immediately after an
input_audio_buffer.commit. -/
def createsFollowCommit : List OaiCmd → Bool
  | [] => true
  | OaiCmd.inputCommit :: OaiCmd.responseCreate _ :: rest => createsFollowCommit rest
  | OaiCmd.responseCreate _ :: _ => false
  | _ :: rest => createsFollowCommit rest

/- ============== concrete inputs used by counterexamples and witnesses ========== -/

/-- A concrete profile whose bot JSON specifies a literal first utterance. -/
def profileHola : ResolvedProfile :=
  { voice := ("alloy"), temperature := 0.8,
    system_prompt := ("Eres el asistente."),
    first_message := ("Hola, soy el asistente."),
    model := ("gpt-4o-realtime-preview"), vad_type := ("server_vad"),
    vad_silence_ms := 550, vad_prefix_ms := 150 }

/-- A state mid-BotSpeaking: a response is in flight, one fragment is queued,
no cancel has been sent. -/
def botSpeakingState : BridgeState :=
  { stream_sid := some ("MZ123"), speaking_out := true,
    barge_cancel_sent := false, user_ms_since_last_commit := 100,
    user_ms_while_bot_talking := 100, pending_audio := true, had_audio := true,
    queue := [("QUEUED1")] }

/-- The state right after a barge-in: the user is speaking, the queue was just
drained and the cancel sent; the spec state machine calls this UserSpeaking. -/
def userSpeakingState : BridgeState :=
  { stream_sid := some ("MZ123"), speaking_out := false,
    barge_cancel_sent := true, user_ms_since_last_commit := 140,
    user_ms_while_bot_talking := 0, pending_audio := true, had_audio := true,
    queue := [] }

/-- A state with only 60 ms accumulated since the last commit (Scenario B). -/
def lowAudioState : BridgeState :=
  { initialBridgeState with user_ms_since_last_commit := 60, had_audio := true,
                            pending_audio := true }

/-- Six 20 ms user frames, then the engine's speech-stopped event. -/
def evsC5 : List BridgeEv :=
  List.replicate 6 (BridgeEv.tw (TwEvent.media ("dXNlcg=="))) ++
  [BridgeEv.oa OaiEvent.speech_stopped]

/-- The steps caused by the six media frames of `evsC5`. -/
def c2pre : List (BridgeEv × List BAction) :=
  List.replicate 6
    (BridgeEv.tw (TwEvent.media ("dXNlcg==")),
     [BAction.oai (OaiCmd.inputAppend ("dXNlcg=="))])

/-- The commit-emitting step of `evsC5`. -/
def c2stp : BridgeEv × List BAction :=
  (BridgeEv.oa OaiEvent.speech_stopped,
   [BAction.oai OaiCmd.inputCommit, BAction.oai (OaiCmd.responseCreate none)])

/-- The OpenAI-socket log of running `evsC5` under `profileHola`, up to but not
including the final response.create. -/
def c5pre : List OaiLogEntry :=
  [OaiLogEntry.sent (OaiCmd.sessionUpdate (mkSession profileHola)),
   OaiLogEntry.sent (OaiCmd.responseCreate (some ("Hola, soy el asistente.")))] ++
  List.replicate 6 (OaiLogEntry.sent (OaiCmd.inputAppend ("dXNlcg=="))) ++
  [OaiLogEntry.recv OaiEvent.speech_stopped,
   OaiLogEntry.sent OaiCmd.inputCommit]

/- ===================== Bot JSON loading (_load_bot_json, lines 62-116) ========= -/

/-- JSON values, as far as the bot profile files need them. -/
inductive JVal where
  | str (v : String)
  | int (v : Int)
  | rat (v : ℚ)
  | obj (fields : List (String × JVal))

/-- A JSON object, insertion ordered like a Python dict. -/
abbrev BotCfg := List (String × JVal)

/-- Dictionary lookup. -/
def getCfg (cfg : BotCfg) (k : String) : Option JVal :=
  (cfg.find? (fun pr => pr.1 == k)).map (fun pr => pr.2)

/-- Python `dict.setdefault`: append the pair only when the key is absent. -/
def setdefaultCfg (cfg : BotCfg) (k : String) (v : JVal) : BotCfg :=
  if (getCfg cfg k).isSome then cfg else cfg ++ [(k, v)]

/-- Default VAD object (lines 106 and 114). -/
def defaultVad : JVal :=
  JVal.obj [(("type"), JVal.str ("server_vad")),
            (("silence_ms"), JVal.int 550),
            (("prefix_ms"), JVal.int 150)]

/-- The inline last-resort configuration (lines 96-107). -/
def inlineDefaultCfg : BotCfg :=
  [(("system_prompt"),
    JVal.str ("Eres el asistente de voz de In Houston Texas. Hablas en español latino, cálido y profesional. Respondes breve, haces preguntas claras y ayudas a agendar citas.")),
   (("first_message"),
    JVal.str ("Hola, soy el asistente de In Houston Texas. ¿En qué te ayudo?")),
   (("voice"), JVal.str ("alloy")),
   (("temperature"), JVal.rat 0.8),
   (("model"), JVal.str ("gpt-4o-realtime-preview")),
   (("vad"), defaultVad)]

/-- Slug normalization (line 79): strip, lowercase, and an empty slug falls
back to the default bot. -/
def normalizeSlug (defaultBot slug : String) : String :=
  let s := slug.trim.toLower
  if s = "" then defaultBot else s

/-- The five mandatory-key defaults (lines 110-114), in program order. -/
def applyDefaults (cfg : BotCfg) : BotCfg :=
  let c1 := setdefaultCfg cfg ("voice") (JVal.str ("alloy"))
  let c2 := setdefaultCfg c1 ("temperature") (JVal.rat 0.8)
  let c3 := setdefaultCfg c2 ("system_prompt") (JVal.str (""))
  let c4 := setdefaultCfg c3 ("model") (JVal.str ("gpt-4o-realtime-preview"))
  setdefaultCfg c4 ("vad") defaultVad

/-- Model of `_load_bot_json` (lines 62-116). `fs` abstracts `read_json` over
the bots directory; `cache` is the `_JSON_CACHE` dict, threaded explicitly.
Returns the profile and the updated cache. -/
def load_bot_json (fs : String → Option BotCfg) (defaultBot : String)
    (cache : List (String × BotCfg)) (slug : String) :
    BotCfg × List (String × BotCfg) :=
  let s := normalizeSlug defaultBot slug
  match cache.find? (fun pr => pr.1 == s) with
  | some pr => (pr.2, cache)
  | none =>
      let cfg0 :=
        match fs s with
        | some c => some c
        | none => if s ≠ defaultBot then fs defaultBot else none
      let cfg2 := applyDefaults (cfg0.getD inlineDefaultCfg)
      (cfg2, cache ++ [(s, cfg2)])

/-- The five keys every returned profile must contain. -/
def hasRequiredKeys (cfg : BotCfg) : Bool :=
  (getCfg cfg ("voice")).isSome && (getCfg cfg ("temperature")).isSome &&
  (getCfg cfg ("system_prompt")).isSome && (getCfg cfg ("model")).isSome &&
  (getCfg cfg ("vad")).isSome

/-- Cache well-formedness: every cached profile has the required keys. -/
def cacheWF (cache : List (String × BotCfg)) : Bool :=
  cache.all (fun pr => hasRequiredKeys pr.2)

/- ============ Codec transcoder (app/services/openai_realtime.py 20-31) ========= -/

/- The two helpers build on CPython's audioop module: ulaw2lin / lin2ulaw are
the Sun g711 reference routines (BIAS 0x84, CLIP 8159), ratecv is audioop's
linear-interpolation rate converter; both are embedded below. -/

/-- The search helper of g711.c over the constant segment-end table
seg_uend = [0x3F, 0x7F, 0xFF, 0x1FF, 0x3FF, 0x7FF, 0xFFF, 0x1FFF]: the first
index whose entry is >= val, else 8; the loop is unrolled over the table. -/
def ulawSearch (val : Nat) : Nat :=
  if val ≤ 63 then 0
  else if val ≤ 127 then 1
  else if val ≤ 255 then 2
  else if val ≤ 511 then 3
  else if val ≤ 1023 then 4
  else if val ≤ 2047 then 5
  else if val ≤ 4095 then 6
  else if val ≤ 8191 then 7
  else 8

/-- st_14linear2ulaw of audioop.c on a (14-bit) sample: split sign, clip the
magnitude at 8159, add the shifted bias 33, find the segment, then pack sign,
segment and quantization bits, complementing the code word. -/
def st_14linear2ulaw (pcm : Int) : Nat :=
  let mask : Nat := if pcm < 0 then 0x7F else 0xFF
  let m0 : Nat := if pcm < 0 then (-pcm).toNat else pcm.toNat
  let m1 : Nat := if 8159 < m0 then 8159 else m0
  let b : Nat := m1 + 33
  let seg := ulawSearch b
  if 8 ≤ seg then 0x7F ^^^ mask
  else ((seg <<< 4) ||| ((b >>> (seg + 1)) &&& 0xF)) ^^^ mask

/-- lin2ulaw for one 16-bit sample: audioop feeds the sample shifted right by
two (arithmetically, i.e. floor division by 4) into st_14linear2ulaw. -/
def lin2ulawSample (s : Int) : Nat := st_14linear2ulaw (Int.fdiv s 4)

/-- st_ulaw2linear16: decode one μ-law byte to a 16-bit sample (complement the
byte, rebuild the biased mantissa, shift by the segment, subtract the bias,
restore the sign). -/
def ulaw2lin16 (u : Nat) : Int :=
  let v : Nat := 255 - (u &&& 255)
  let t : Nat := (((v &&& 0xF) <<< 3) + 0x84) <<< ((v >>> 4) &&& 7)
  if v &&& 0x80 = 0 then (t : Int) - 0x84 else (0x84 : Int) - (t : Int)

/-- 32-bit staging of a width-2 sample inside ratecv (GETSAMPLE32). -/
def getSample32 (s : Int) : Int := s * 65536

/-- Writing one interpolated 32-bit value back to width 2 (SETSAMPLE32, an
arithmetic right shift by 16). -/
def setSample32 (v : Int) : Int := Int.fdiv v 65536

/-- The inner emit loop of audioop.ratecv: while d >= 0 output the linear
interpolation (prev*d + cur*(outrate-d)) / outrate and decrease d by inrate.
The C loop computes the quotient in double precision and truncates toward
zero; at the rates used here the division is always exact. The fuel bounds
the iteration count (at most d+1 steps when inrate >= 1). -/
def ratecvEmit (inrate outrate prev cur : Int) : Nat → Int → List Int × Int
  | 0, d => ([], d)
  | fuel + 1, d =>
      if 0 ≤ d then
        let out := setSample32 ((prev * d + cur * (outrate - d)).tdiv outrate)
        let r := ratecvEmit inrate outrate prev cur fuel (d - inrate)
        (out :: r.1, r.2)
      else ([], d)

/-- The outer loop of audioop.ratecv (mono, width 2, default weights): read
one input sample (the previous current becomes prev), advance d by outrate,
then run the emit loop. -/
def ratecvLoop (inrate outrate : Int) : List Int → Int → Int → List Int
  | [], _, _ => []
  | s :: rest, cur, d =>
      let e := ratecvEmit inrate outrate (getSample32 cur) (getSample32 s)
        ((d + outrate).toNat + 1) (d + outrate)
      e.1 ++ ratecvLoop inrate outrate rest s e.2

/-- audioop.ratecv on one mono width-2 fragment with state None: divide both
rates by their gcd, start from prev = cur = 0 and d = -outrate. -/
def ratecv (samples : List Int) (inrate outrate : Nat) : List Int :=
  let g := Nat.gcd inrate outrate
  let ir : Int := ((inrate / g : Nat) : Int)
  let orr : Int := ((outrate / g : Nat) : Int)
  ratecvLoop ir orr samples 0 (-orr)

/-- Interpret a Nat (mod 65536) as a signed 16-bit sample. -/
def toInt16 (n : Nat) : Int :=
  if n % 65536 < 32768 then ((n % 65536 : Nat) : Int)
  else ((n % 65536 : Nat) : Int) - 65536

/-- Little-endian PCM16 bytes to samples; audioop raises on a fragment whose
length is not a multiple of the width, hence the Option. -/
def bytesToPcm16 : List Nat → Option (List Int)
  | [] => some []
  | [_] => none
  | b0 :: b1 :: rest =>
      (bytesToPcm16 rest).map
        (fun l => toInt16 (b0 % 256 + 256 * (b1 % 256)) :: l)

/-- Samples back to little-endian PCM16 bytes (two's complement wrap). -/
def pcm16ToBytes (l : List Int) : List Nat :=
  l.flatMap (fun s => [(s % 65536).toNat % 256, (s % 65536).toNat / 256])

/-- mulaw8k_b64_to_pcm16_16k (openai_realtime.py lines 20-25): base64 → μ-law
bytes → audioop.ulaw2lin → audioop.ratecv 8000→16000 → PCM16 bytes. -/
def mulaw8k_b64_to_pcm16_16k (audio_b64 : String) : List Nat :=
  pcm16ToBytes (ratecv ((b64decode audio_b64).map ulaw2lin16) 8000 16000)

/-- pcm16_16k_to_mulaw8k_b64 (openai_realtime.py lines 27-31): PCM16 bytes →
audioop.ratecv 16000→8000 → audioop.lin2ulaw → base64. -/
def pcm16_16k_to_mulaw8k_b64 (pcm : List Nat) : Option String :=
  (bytesToPcm16 pcm).map (fun samples =>
    b64encode ((ratecv samples 16000 8000).map lin2ulawSample))

/-- The C6 round trip: 16 kHz PCM16 bytes through the telephony codec and
back to 16 kHz PCM16 bytes. -/
def roundTrip (pcm : List Nat) : Option (List Nat) :=
  (pcm16_16k_to_mulaw8k_b64 pcm).map mulaw8k_b64_to_pcm16_16k

/-- Even-indexed samples: what ratecv 16000→8000 computes. -/
def evens : List Int → List Int
  | [] => []
  | [a] => [a]
  | a :: _ :: rest => a :: evens rest

/-- Interpolated upsampling tail: floor-average with the predecessor, then
the sample itself. -/
def upPairs : Int → List Int → List Int
  | _, [] => []
  | p, c :: rest => Int.fdiv (p + c) 2 :: c :: upPairs c rest

/-- What ratecv 8000→16000 computes: the first sample, then for each further
sample the floor-average with its predecessor followed by the sample. -/
def upsampleSpec : List Int → List Int
  | [] => []
  | s :: rest => s :: upPairs s rest

/-- μ-law round trip of one sample. -/
def muRT (s : Int) : Int := ulaw2lin16 (lin2ulawSample s)

/-- The signal's own linear-interpolation deviation at odd index 2k+1: the
distance of the sample from the floor-average of its even neighbours. This is
the inherent resampling error of the 16k→8k→16k path for that signal. -/
def interpDev (samples : List Int) (k : Nat) : Nat :=
  (Int.fdiv (samples.getD (2 * k) 0 + samples.getD (2 * k + 2) 0) 2 -
    samples.getD (2 * k + 1) 0).natAbs

/-- A short synthetic 16 kHz tone (eight samples of a coarse sine), used to
witness the round-trip bound on a concrete signal. -/
def toneSamples : List Int :=
  [0, 7071, 10000, 7071, 0, -7071, -10000, -7071]

/- ===================== theorems: base64 round trip ============================== -/

theorem charVal_sextetChar : ∀ n < 64, charVal (sextetChar n) = n := by decide

theorem sextetChar_ne_pad : ∀ n < 64, sextetChar n ≠ '=' := by decide

theorem encode_filter_map (bs : List Nat) (h : ∀ b ∈ bs, b < 256) :
    ((b64encodeL bs).filter (fun c => c ≠ '=')).map charVal = encSextets bs := by
  induction bs using b64encodeL.induct with
  | case1 => rfl
  | case2 a =>
      have ha : a < 256 := h a (by simp)
      have h1 : a / 4 < 64 := by omega
      have h2 : a % 4 * 16 < 64 := by omega
      simp [b64encodeL, encSextets, List.filter,
        sextetChar_ne_pad _ h1, sextetChar_ne_pad _ h2,
        charVal_sextetChar _ h1, charVal_sextetChar _ h2]
  | case3 a b =>
      have ha : a < 256 := h a (by simp)
      have hb : b < 256 := h b (by simp)
      have h1 : a / 4 < 64 := by omega
      have h2 : a % 4 * 16 + b / 16 < 64 := by omega
      have h3 : b % 16 * 4 < 64 := by omega
      simp [b64encodeL, encSextets, List.filter,
        sextetChar_ne_pad _ h1, sextetChar_ne_pad _ h2, sextetChar_ne_pad _ h3,
        charVal_sextetChar _ h1, charVal_sextetChar _ h2, charVal_sextetChar _ h3]
  | case4 a b c rest ih =>
      have ha : a < 256 := h a (by simp)
      have hb : b < 256 := h b (by simp)
      have hc : c < 256 := h c (by simp)
      have h1 : a / 4 < 64 := by omega
      have h2 : a % 4 * 16 + b / 16 < 64 := by omega
      have h3 : b % 16 * 4 + c / 64 < 64 := by omega
      have h4 : c % 64 < 64 := by omega
      have ih' := ih (fun x hx => h x (by simp [hx]))
      simp [b64encodeL, encSextets, List.filter,
        sextetChar_ne_pad _ h1, sextetChar_ne_pad _ h2, sextetChar_ne_pad _ h3,
        sextetChar_ne_pad _ h4,
        charVal_sextetChar _ h1, charVal_sextetChar _ h2, charVal_sextetChar _ h3,
        charVal_sextetChar _ h4] at ih' ⊢
      exact ih'

theorem decode_encSextets (bs : List Nat) (h : ∀ b ∈ bs, b < 256) :
    b64decodeVals (encSextets bs) = bs := by
  induction bs using encSextets.induct with
  | case1 => rfl
  | case2 a =>
      have ha : a < 256 := h a (by simp)
      simp [encSextets, b64decodeVals]
      omega
  | case3 a b =>
      have ha : a < 256 := h a (by simp)
      have hb : b < 256 := h b (by simp)
      simp [encSextets, b64decodeVals]
      constructor <;> omega
  | case4 a b c rest ih =>
      have ha : a < 256 := h a (by simp)
      have hb : b < 256 := h b (by simp)
      have hc : c < 256 := h c (by simp)
      have ih' := ih (fun x hx => h x (by simp [hx]))
      simp [encSextets, b64decodeVals, ih']
      refine ⟨by omega, by omega, by omega⟩

theorem b64_roundtrip (bs : List Nat) (h : ∀ b ∈ bs, b < 256) :
    b64decode (b64encode bs) = bs := by
  unfold b64decode b64encode
  rw [show (String.mk (b64encodeL bs)).data = b64encodeL bs from rfl]
  rw [encode_filter_map bs h, decode_encSextets bs h]

/-- C9: for every non-negative duration `ms`, `ulaw_silence_b64 ms` returns the
base64 encoding of exactly `8000 * ms / 1000` (that is, `8 * ms`) bytes, each
equal to 0xFF, the μ-law encoding of silence; in particular the pacer's 20 ms
keepalive frame `SILENCE_20` decodes to 160 bytes of 0xFF. -/
theorem C9_ulaw_silence_frame (ms : Nat) :
    b64decode (ulaw_silence_b64 ms) = List.replicate (8000 * ms / 1000) 0xFF ∧
    8000 * ms / 1000 = 8 * ms ∧
    b64decode SILENCE_20 = List.replicate 160 0xFF := by
  refine ⟨?_, by omega, ?_⟩
  · refine b64_roundtrip _ ?_
    intro b hb
    have := List.eq_of_mem_replicate hb
    omega
  · refine b64_roundtrip _ ?_
    intro b hb
    have := List.eq_of_mem_replicate hb
    omega

/- ===================== theorems: turn taking and barge-in ======================= -/

/-- C1 (counterexample): from a BotSpeaking state with a response in flight and
a queued fragment, an engine activity-start (speech_started) event causes no
state change and no outgoing message at all: no response-cancel, no queue
drain, no clear-playback-buffer message, no transition to UserSpeaking. -/
theorem C1_counterexample :
    handleOaiEvent botSpeakingState OaiEvent.speech_started =
      (botSpeakingState, []) ∧
    botSpeakingState.speaking_out = true ∧
    botSpeakingState.queue = [("QUEUED1")] :=
  ⟨rfl, rfl, rfl⟩

/-- C1 (amended): engine activity-start events are ignored by the bridge;
barge-in is instead triggered in the telephony receive loop once at least
120 ms of user audio has accumulated while the bot is speaking: then a
response-cancel is sent, the outbound queue is synchronously drained to empty
and the speaking state is cleared, but no clear-playback-buffer message is
ever sent to the telephony leg by any handler. -/
theorem C1_amended :
    (∀ s, handleOaiEvent s OaiEvent.speech_started = (s, [])) ∧
    (∀ s payload, s.speaking_out = true → s.barge_cancel_sent = false →
      BARGE_MIN_USER_MS ≤ s.user_ms_while_bot_talking + USER_FRAME_MS →
      (handleMedia s payload).1.queue = [] ∧
      (handleMedia s payload).1.speaking_out = false ∧
      (handleMedia s payload).2 =
        [BAction.oai OaiCmd.responseCancel,
         BAction.oai (OaiCmd.inputAppend payload)]) ∧
    (∀ s e, BAction.twilioClear ∉ (handleOaiEvent s e).2) ∧
    (∀ s e, BAction.twilioClear ∉ (handleTwEvent s e).2.1) := by
  refine ⟨fun s => rfl, ?_, ?_, ?_⟩
  · intro s payload hs hb hms
    have hbarge :
        ((if s.speaking_out then s.user_ms_while_bot_talking + USER_FRAME_MS
          else s.user_ms_while_bot_talking)) =
          s.user_ms_while_bot_talking + USER_FRAME_MS := by
      rw [hs]; simp
    simp only [handleMedia, hs, hb, hbarge]
    simp [hms]
    constructor <;> split <;> simp
  · intro s e
    cases e with
    | audioDelta payload => cases payload <;> simp [handleOaiEvent]
    | speech_stopped =>
        by_cases h : COMMIT_MIN_MS ≤ s.user_ms_since_last_commit <;>
          simp [handleOaiEvent, h]
    | _ => simp [handleOaiEvent]
  · intro s e
    cases e with
    | media payload =>
        simp only [handleTwEvent, handleMedia]
        split <;> simp
    | _ => simp [handleTwEvent]

/-- C1 (amended) witness at a concrete barge-in state and event. -/
theorem C1_amended_witness :
    (handleMedia botSpeakingState ("dXNlcg==")).1.queue = [] ∧
    (handleMedia botSpeakingState ("dXNlcg==")).1.speaking_out = false ∧
    (handleMedia botSpeakingState ("dXNlcg==")).2 =
      [BAction.oai OaiCmd.responseCancel,
       BAction.oai (OaiCmd.inputAppend ("dXNlcg=="))] := by
  have h := C1_amended.2.1 botSpeakingState ("dXNlcg==")
    (by decide) (by decide) (by decide)
  exact h

/-- C3 (counterexample): in the post-barge-in UserSpeaking state, an arriving
response-audio fragment IS enqueued, and the pacer then emits that queued bot
audio (not silence) while the user is still speaking. -/
theorem C3_counterexample :
    (handleOaiEvent userSpeakingState
        (OaiEvent.audioDelta (some ("Qk9UQVVESU8=")))).1.queue =
      [("Qk9UQVVESU8=")] ∧
    paceStep (handleOaiEvent userSpeakingState
        (OaiEvent.audioDelta (some ("Qk9UQVVESU8=")))).1 =
      ({ userSpeakingState with speaking_out := true },
       BAction.twilioMedia ("Qk9UQVVESU8=")) ∧
    (("Qk9UQVVESU8=") == SILENCE_20) = false := by
  refine ⟨rfl, by decide, by decide⟩

/-- C3 (amended): response-audio fragments are enqueued unconditionally, in
arrival order, whatever the turn state; the pacer dequeues whenever the queue
is non-empty and emits the silence keepalive only when it is empty. Doubletalk
avoidance relies solely on the barge-in drain having emptied the queue. -/
theorem C3_amended :
    (∀ s p, handleOaiEvent s (OaiEvent.audioDelta (some p)) =
      ({ s with speaking_out := true, queue := s.queue ++ [p] }, [])) ∧
    (∀ s, s.queue = [] → paceStep s = (s, BAction.twilioMedia SILENCE_20)) ∧
    (∀ s b rest, s.queue = b :: rest →
      paceStep s = ({ s with queue := rest }, BAction.twilioMedia b)) := by
  refine ⟨fun s p => rfl, ?_, ?_⟩
  · intro s hq
    simp [paceStep, hq]
  · intro s b rest hq
    simp [paceStep, hq]

/-- C3 (amended) witness at concrete states. -/
theorem C3_amended_witness :
    handleOaiEvent userSpeakingState (OaiEvent.audioDelta (some ("ZGVsdGE="))) =
      ({ userSpeakingState with speaking_out := true, queue := [("ZGVsdGE=")] },
       []) ∧
    paceStep initialBridgeState =
      (initialBridgeState, BAction.twilioMedia SILENCE_20) ∧
    paceStep botSpeakingState =
      ({ botSpeakingState with queue := [] },
       BAction.twilioMedia ("QUEUED1")) := by
  refine ⟨?_, ?_, ?_⟩
  · have h := C3_amended.1 userSpeakingState ("ZGVsdGE=")
    simpa [userSpeakingState] using h
  · exact C3_amended.2.1 initialBridgeState rfl
  · have h := C3_amended.2.2 botSpeakingState ("QUEUED1") [] rfl
    simpa [botSpeakingState] using h

/-- C4 (counterexample): with a profile that has a literal first utterance, the
bootstrap sends session.update then a response.create carrying the utterance
verbatim, but no command sent at bootstrap disables engine auto-response: the
turn_detection object carries only the three VAD fields, no create_response
field, and nothing is later sent to re-enable auto-response. -/
theorem C4_counterexample :
    bootstrapCmds profileHola =
      [OaiCmd.sessionUpdate (mkSession profileHola),
       OaiCmd.responseCreate (some ("Hola, soy el asistente."))] ∧
    (bootstrapCmds profileHola).any disablesAutoResponse = false ∧
    (mkSession profileHola).turn_detection =
      [TDField.strF ("type") ("server_vad"),
       TDField.intF ("silence_duration_ms") 550,
       TDField.intF ("prefix_padding_ms") 150] := by
  refine ⟨rfl, rfl, rfl⟩

/-- C4 (amended): when the profile specifies a literal first utterance the
first (and only) bootstrap response-create carries that text verbatim as its
instructions; but auto-response on activity-stop is neither disabled
beforehand nor re-enabled afterwards — the session.update sent before it
carries exactly the three VAD fields type, silence_duration_ms and
prefix_padding_ms, and no bootstrap command disables auto-response. -/
theorem C4_amended (p : ResolvedProfile) (h : p.first_message ≠ "") :
    bootstrapCmds p =
      [OaiCmd.sessionUpdate (mkSession p),
       OaiCmd.responseCreate (some p.first_message)] ∧
    (mkSession p).turn_detection.map tdKey =
      [("type"), ("silence_duration_ms"), ("prefix_padding_ms")] ∧
    (bootstrapCmds p).any disablesAutoResponse = false := by
  refine ⟨?_, rfl, ?_⟩
  · simp [bootstrapCmds, h]
  · simp [bootstrapCmds, h, disablesAutoResponse, mkSession, tdKey]

/-- C4 (amended) witness at the concrete profile with a first utterance. -/
theorem C4_amended_witness :
    bootstrapCmds profileHola =
      [OaiCmd.sessionUpdate (mkSession profileHola),
       OaiCmd.responseCreate (some profileHola.first_message)] ∧
    (mkSession profileHola).turn_detection.map tdKey =
      [("type"), ("silence_duration_ms"), ("prefix_padding_ms")] ∧
    (bootstrapCmds profileHola).any disablesAutoResponse = false :=
  C4_amended profileHola (by decide)

/-- C7: on a Twilio `stop` message the bridge closes the OpenAI socket and the
receive loop terminates; once the loop has ended no event produces any further
action; and the Twilio send helper refuses to write once the telephony socket
is no longer connected, so no media write is ever attempted on a closed
socket. -/
theorem C7_stop_teardown :
    (∀ s, handleTwEvent s TwEvent.stop = (s, [BAction.closeOai], false)) ∧
    (∀ (s : BridgeState) evs, runSteps { bs := s, alive := false } evs =
        evs.map (fun e => (e, []))) ∧
    (∀ payload, twilioSend false payload = []) := by
  refine ⟨fun s => rfl, ?_, fun payload => rfl⟩
  intro s evs
  induction evs with
  | nil => rfl
  | cons e es ih => simp [runSteps, stepEv, ih]

/-- C8: when the AI-engine credential OPENAI_API_KEY is empty, media_socket
accepts the telephony websocket and immediately closes it: no connection to
the engine is attempted and no media action of any kind occurs. -/
theorem C8_missing_credential_fatal (modelName : String) :
    mediaSocketSetup ("") modelName =
      [SetupAction.acceptTwilio, SetupAction.closeTwilio] := by
  rfl

/-- In any single step, an input_audio_buffer.commit is emitted only when at
least COMMIT_MIN_MS of user audio had accumulated since the last commit. -/
theorem commit_needs_min_audio (r : BridgeRun) (e : BridgeEv)
    (h : BAction.oai OaiCmd.inputCommit ∈ (stepEv r e).2) :
    COMMIT_MIN_MS ≤ r.bs.user_ms_since_last_commit := by
  by_cases ha : r.alive
  · cases e with
    | tw te =>
        cases te with
        | media payload =>
            simp only [stepEv, ha, if_true, handleTwEvent, handleMedia] at h
            split at h <;> simp at h
        | start sid => simp [stepEv, ha, handleTwEvent] at h
        | mark => simp [stepEv, ha, handleTwEvent] at h
        | stop => simp [stepEv, ha, handleTwEvent] at h
        | unknown => simp [stepEv, ha, handleTwEvent] at h
    | oa oe =>
        cases oe with
        | speech_stopped =>
            by_cases hg : COMMIT_MIN_MS ≤ r.bs.user_ms_since_last_commit
            · exact hg
            · simp [stepEv, ha, handleOaiEvent, hg] at h
        | audioDelta payload =>
            cases payload <;> simp [stepEv, ha, handleOaiEvent] at h
        | error => simp [stepEv, ha, handleOaiEvent] at h
        | speech_started => simp [stepEv, ha, handleOaiEvent] at h
        | response_done => simp [stepEv, ha, handleOaiEvent] at h
        | unrelated => simp [stepEv, ha, handleOaiEvent] at h
    | tick inact gap =>
        by_cases hg : COMMIT_MIN_MS ≤ r.bs.user_ms_since_last_commit
        · exact hg
        · by_cases h1 : r.bs.pending_audio && inact <;>
            by_cases h2 : r.bs.had_audio && gap <;>
            simp [stepEv, ha, forcedTick, h1, h2, hg] at h <;>
            split at h <;> simp at h
  · simp [stepEv, ha] at h


/-- Unfolding of stepEv on a live run for a Twilio event. -/
theorem stepEv_tw (r : BridgeRun) (te : TwEvent) (ha : r.alive = true) :
    stepEv r (BridgeEv.tw te) =
      ({ bs := (handleTwEvent r.bs te).1, alive := (handleTwEvent r.bs te).2.2 },
       (handleTwEvent r.bs te).2.1) := by
  rcases hh : handleTwEvent r.bs te with ⟨s', acts, cont⟩
  simp [stepEv, ha, hh]

/-- Unfolding of stepEv on a live run for an OpenAI event. -/
theorem stepEv_oa (r : BridgeRun) (oe : OaiEvent) (ha : r.alive = true) :
    stepEv r (BridgeEv.oa oe) =
      ({ bs := (handleOaiEvent r.bs oe).1, alive := true },
       (handleOaiEvent r.bs oe).2) := by
  rcases hh : handleOaiEvent r.bs oe with ⟨s', acts⟩
  simp [stepEv, ha, hh]

/-- Unfolding of stepEv on a live run for a forced-committer tick. -/
theorem stepEv_tick (r : BridgeRun) (i g : Bool) (ha : r.alive = true) :
    stepEv r (BridgeEv.tick i g) =
      ({ bs := (forcedTick r.bs i g).1, alive := true },
       (forcedTick r.bs i g).2) := by
  rcases hh : forcedTick r.bs i g with ⟨s', acts⟩
  simp [stepEv, ha, hh]

/-- A media frame never emits a commit, and adds exactly USER_FRAME_MS to the
accumulated-audio counter. -/
theorem handleMedia_cnt (s : BridgeState) (p : String) :
    BAction.oai OaiCmd.inputCommit ∉ (handleMedia s p).2 ∧
    (handleMedia s p).1.user_ms_since_last_commit =
      s.user_ms_since_last_commit + USER_FRAME_MS := by
  simp only [handleMedia]
  refine ⟨?_, ?_⟩
  · split <;> simp
  · repeat' split
    all_goals rfl

/-- An OpenAI event either emits a commit and zeroes the accumulated counter,
or leaves the counter unchanged. -/
theorem handleOai_cnt (s : BridgeState) (e : OaiEvent) :
    (handleOaiEvent s e).1.user_ms_since_last_commit =
      (if BAction.oai OaiCmd.inputCommit ∈ (handleOaiEvent s e).2 then 0
       else s.user_ms_since_last_commit) := by
  cases e with
  | speech_stopped =>
      by_cases h : COMMIT_MIN_MS ≤ s.user_ms_since_last_commit <;>
        simp [handleOaiEvent, h]
  | audioDelta p => cases p <;> simp [handleOaiEvent]
  | error => simp [handleOaiEvent]
  | speech_started => simp [handleOaiEvent]
  | response_done => simp [handleOaiEvent]
  | unrelated => simp [handleOaiEvent]

/-- A forced-committer tick either emits a commit and zeroes the accumulated
counter, or leaves the counter unchanged. -/
theorem forcedTick_cnt (s : BridgeState) (i g : Bool) :
    (forcedTick s i g).1.user_ms_since_last_commit =
      (if BAction.oai OaiCmd.inputCommit ∈ (forcedTick s i g).2 then 0
       else s.user_ms_since_last_commit) := by
  by_cases h1 : s.pending_audio && i
  · by_cases h2 : COMMIT_MIN_MS ≤ s.user_ms_since_last_commit
    · simp [forcedTick, h1, h2]
    · by_cases h3 : s.had_audio && g <;> simp [forcedTick, h1, h2, h3] <;>
        split <;> simp
  · by_cases h3 : s.had_audio && g && s.pending_audio
    · by_cases h2 : COMMIT_MIN_MS ≤ s.user_ms_since_last_commit <;>
        simp [forcedTick, h1, h3, h2]
    · simp [forcedTick, h1, h3]

/-- A Twilio event other than media never commits and never changes the
accumulated counter; a media event is handled by handleMedia. -/
theorem handleTw_cnt (s : BridgeState) (te : TwEvent) :
    (∀ p, te = TwEvent.media p →
      (handleTwEvent s te).2.1 = (handleMedia s p).2 ∧
      (handleTwEvent s te).1 = (handleMedia s p).1) ∧
    ((∀ p, te ≠ TwEvent.media p) →
      BAction.oai OaiCmd.inputCommit ∉ (handleTwEvent s te).2.1 ∧
      (handleTwEvent s te).1.user_ms_since_last_commit =
        s.user_ms_since_last_commit) := by
  cases te with
  | media q =>
      refine ⟨?_, ?_⟩
      · intro p hp
        cases hp
        rcases hh : handleMedia s q with ⟨s', acts⟩
        simp [handleTwEvent, hh]
      · intro hne
        exact absurd rfl (hne q)
  | start sid => exact ⟨fun p hp => TwEvent.noConfusion hp, fun _ => ⟨(by simp [handleTwEvent]), rfl⟩⟩
  | mark => exact ⟨fun p hp => TwEvent.noConfusion hp, fun _ => ⟨(by simp [handleTwEvent]), rfl⟩⟩
  | stop => exact ⟨fun p hp => TwEvent.noConfusion hp, fun _ => ⟨(by simp [handleTwEvent]), rfl⟩⟩
  | unknown => exact ⟨fun p hp => TwEvent.noConfusion hp, fun _ => ⟨(by simp [handleTwEvent]), rfl⟩⟩

/-- One step keeps the audio-accounting invariant: the accumulated counter is
bounded by USER_FRAME_MS times the number of media frames processed since the
last commit-emitting step. -/
theorem step_count_inv (r : BridgeRun) (e : BridgeEv) (c : Nat)
    (hc : r.bs.user_ms_since_last_commit ≤ USER_FRAME_MS * c) :
    (stepEv r e).1.bs.user_ms_since_last_commit ≤
      USER_FRAME_MS * (if commitStep (e, (stepEv r e).2) then 0
        else if mediaStep (e, (stepEv r e).2) then c + 1 else c) := by
  by_cases ha : r.alive
  · by_cases hq : BAction.oai OaiCmd.inputCommit ∈ (stepEv r e).2
    · have h0 : (stepEv r e).1.bs.user_ms_since_last_commit = 0 := by
        cases e with
        | tw te =>
            cases te with
            | media payload =>
                rw [stepEv_tw r _ ha] at hq
                rw [((handleTw_cnt r.bs (TwEvent.media payload)).1 payload rfl).1]
                  at hq
                exact absurd hq (handleMedia_cnt r.bs payload).1
            | start sid =>
                rw [stepEv_tw r _ ha] at hq
                exact absurd hq
                  ((handleTw_cnt r.bs (TwEvent.start sid)).2
                    (fun p hp => TwEvent.noConfusion hp)).1
            | mark =>
                rw [stepEv_tw r _ ha] at hq
                exact absurd hq
                  ((handleTw_cnt r.bs TwEvent.mark).2
                    (fun p hp => TwEvent.noConfusion hp)).1
            | stop =>
                rw [stepEv_tw r _ ha] at hq
                exact absurd hq
                  ((handleTw_cnt r.bs TwEvent.stop).2
                    (fun p hp => TwEvent.noConfusion hp)).1
            | unknown =>
                rw [stepEv_tw r _ ha] at hq
                exact absurd hq
                  ((handleTw_cnt r.bs TwEvent.unknown).2
                    (fun p hp => TwEvent.noConfusion hp)).1
        | oa oe =>
            rw [stepEv_oa r _ ha] at hq ⊢
            rw [handleOai_cnt r.bs oe]
            simp [hq]
        | tick i g =>
            rw [stepEv_tick r _ _ ha] at hq ⊢
            rw [forcedTick_cnt r.bs i g]
            simp [hq]
      have hcs : commitStep (e, (stepEv r e).2) = true := by
        simp [commitStep, hq]
      rw [hcs, h0]
      simp
    · have hcs : commitStep (e, (stepEv r e).2) = false := by
        simp [commitStep, hq]
      rw [hcs]
      simp only [Bool.false_eq_true, reduceIte]
      cases e with
      | tw te =>
          cases te with
          | media payload =>
              have hms : mediaStep (BridgeEv.tw (TwEvent.media payload),
                  (stepEv r (BridgeEv.tw (TwEvent.media payload))).2) = true := rfl
              rw [hms]
              rw [stepEv_tw r _ ha]
              rw [((handleTw_cnt r.bs (TwEvent.media payload)).1 payload rfl).2]
              rw [(handleMedia_cnt r.bs payload).2]
              have : USER_FRAME_MS * (c + 1) = USER_FRAME_MS * c + USER_FRAME_MS := by
                ring
              simp only [reduceIte]
              omega
          | start sid =>
              rw [stepEv_tw r _ ha]
              rw [((handleTw_cnt r.bs (TwEvent.start sid)).2
                    (fun p hp => TwEvent.noConfusion hp)).2]
              simpa [mediaStep] using hc
          | mark =>
              rw [stepEv_tw r _ ha]
              rw [((handleTw_cnt r.bs TwEvent.mark).2
                    (fun p hp => TwEvent.noConfusion hp)).2]
              simpa [mediaStep] using hc
          | stop =>
              rw [stepEv_tw r _ ha]
              rw [((handleTw_cnt r.bs TwEvent.stop).2
                    (fun p hp => TwEvent.noConfusion hp)).2]
              simpa [mediaStep] using hc
          | unknown =>
              rw [stepEv_tw r _ ha]
              rw [((handleTw_cnt r.bs TwEvent.unknown).2
                    (fun p hp => TwEvent.noConfusion hp)).2]
              simpa [mediaStep] using hc
      | oa oe =>
          rw [stepEv_oa r _ ha] at hq ⊢
          rw [handleOai_cnt r.bs oe]
          simp only [mediaStep]
          simp [hq]
          exact hc
      | tick i g =>
          rw [stepEv_tick r _ _ ha] at hq ⊢
          rw [forcedTick_cnt r.bs i g]
          simp only [mediaStep]
          simp [hq]
          exact hc
  · have : stepEv r e = (r, []) := by simp [stepEv, ha]
    rw [this]
    have hcs : commitStep (e, ([] : List BAction)) = false := by
      simp [commitStep]
    rw [hcs]
    simp only [Bool.false_eq_true, reduceIte]
    split
    · calc r.bs.user_ms_since_last_commit ≤ USER_FRAME_MS * c := hc
        _ ≤ USER_FRAME_MS * (c + 1) := by
            exact Nat.mul_le_mul_left _ (Nat.le_succ c)
    · exact hc

/-- Unfolding of runSteps on a cons. -/
theorem runSteps_cons (r : BridgeRun) (e : BridgeEv) (es : List BridgeEv) :
    runSteps r (e :: es) =
      (e, (stepEv r e).2) :: runSteps (stepEv r e).1 es := by
  rcases h : stepEv r e with ⟨r', acts⟩
  simp [runSteps, h]

/-- Trace-level commit guard: along any run, whenever a step emits an
input_audio_buffer.commit, at least COMMIT_MIN_MS worth of media frames were
processed since the last commit-emitting step (counting from a carried-in
budget c that bounds the starting counter). -/
theorem C2_aux (evs : List BridgeEv) :
    ∀ (r : BridgeRun) (c : Nat),
      r.bs.user_ms_since_last_commit ≤ USER_FRAME_MS * c →
      ∀ pre stp post, runSteps r evs = pre ++ stp :: post →
      BAction.oai OaiCmd.inputCommit ∈ stp.2 →
      COMMIT_MIN_MS ≤ USER_FRAME_MS * mediaSinceCommitFrom c pre := by
  induction evs with
  | nil =>
      intro r c hc pre stp post heq hcm
      simp [runSteps] at heq
  | cons e es ih =>
      intro r c hc pre stp post heq hcm
      rw [runSteps_cons] at heq
      cases pre with
      | nil =>
          simp only [List.nil_append, List.cons.injEq] at heq
          obtain ⟨h1, _⟩ := heq
          have hmem : BAction.oai OaiCmd.inputCommit ∈ (stepEv r e).2 := by
            rw [← h1] at hcm
            exact hcm
          have hmin := commit_needs_min_audio r e hmem
          have : COMMIT_MIN_MS ≤ USER_FRAME_MS * c := le_trans hmin hc
          simpa [mediaSinceCommitFrom] using this
      | cons p pre' =>
          simp only [List.cons_append, List.cons.injEq] at heq
          obtain ⟨hp, hrest⟩ := heq
          have hstep := step_count_inv r e c hc
          have goal' := ih (stepEv r e).1
            (if commitStep (e, (stepEv r e).2) then 0
             else if mediaStep (e, (stepEv r e).2) then c + 1 else c)
            hstep pre' stp post hrest hcm
          subst hp
          simpa [mediaSinceCommitFrom] using goal'

/-- C2: for every call session (modelled as any interleaving of Twilio frames,
OpenAI events and forced-committer wakeups from the initial state), no
input_audio_buffer.commit is ever sent unless at least COMMIT_MIN_MS (120 ms,
i.e. six 20 ms frames) of user audio accumulated since the previous commit;
and an activity-stop (speech_stopped) arriving with less accumulated audio
causes no commit, no response.create and no state change. -/
theorem C2_commit_min_audio :
    (∀ evs pre stp post,
      runSteps initialRun evs = pre ++ stp :: post →
      BAction.oai OaiCmd.inputCommit ∈ stp.2 →
      COMMIT_MIN_MS ≤ USER_FRAME_MS * mediaSinceCommit pre) ∧
    (∀ s : BridgeState, s.user_ms_since_last_commit < COMMIT_MIN_MS →
      handleOaiEvent s OaiEvent.speech_stopped = (s, [])) := by
  constructor
  · intro evs pre stp post heq hcm
    exact C2_aux evs initialRun 0
      (by simp [initialRun, initialBridgeState]) pre stp post heq hcm
  · intro s h
    simp [handleOaiEvent, Nat.not_le.mpr h]

/-- C2 witness: the concrete run evsC5 commits after six 20 ms frames, and a
speech_stopped with only 60 ms accumulated (Scenario B) does nothing. -/
theorem C2_commit_min_audio_witness :
    COMMIT_MIN_MS ≤ USER_FRAME_MS * mediaSinceCommit c2pre ∧
    handleOaiEvent lowAudioState OaiEvent.speech_stopped = (lowAudioState, []) :=
  ⟨C2_commit_min_audio.1 evsC5 c2pre c2stp [] (by decide) (by decide),
   C2_commit_min_audio.2 lowAudioState (by decide)⟩

/-- C5 (counterexample): a concrete run violating cancel-then-create. The
bootstrap sends a response.create; six user frames and a speech_stopped later,
a second response.create is sent while the first response is still in flight
(no completion event was received), and no response.cancel was ever sent. -/
theorem C5_counterexample :
    sessionLog profileHola evsC5 =
      c5pre ++ [OaiLogEntry.sent (OaiCmd.responseCreate none)] ∧
    inFlight c5pre = true ∧
    c5pre.contains (OaiLogEntry.sent OaiCmd.responseCancel) = false ∧
    (c5pre.filter isCreate).length = 1 := by
  refine ⟨rfl, rfl, rfl, rfl⟩

/-- C5 (amended): the code does not enforce at-most-one-response-in-flight by
cancel-then-create; two creates can be concurrent. What does hold: in every
post-bootstrap handler step, a response.create is only ever sent immediately
after an input_audio_buffer.commit within the same step, and the bootstrap
sends exactly one initial response.create. -/
theorem C5_amended :
    (∀ r e, createsFollowCommit (oaiSent (stepEv r e).2) = true) ∧
    (∀ p, ((bootstrapCmds p).filter isCreateCmd).length = 1) := by
  constructor
  · intro r e
    by_cases ha : r.alive
    · cases e with
      | tw te =>
          cases te with
          | media payload =>
              rw [stepEv_tw r _ ha,
                ((handleTw_cnt r.bs (TwEvent.media payload)).1 payload rfl).1]
              simp only [handleMedia]
              repeat' split
              all_goals simp [oaiSent, createsFollowCommit]
          | start sid => rw [stepEv_tw r _ ha]; rfl
          | mark => rw [stepEv_tw r _ ha]; rfl
          | stop => rw [stepEv_tw r _ ha]; rfl
          | unknown => rw [stepEv_tw r _ ha]; rfl
      | oa oe =>
          rw [stepEv_oa r _ ha]
          cases oe with
          | speech_stopped =>
              by_cases hg : COMMIT_MIN_MS ≤ r.bs.user_ms_since_last_commit <;>
                simp [handleOaiEvent, hg, oaiSent, createsFollowCommit]
          | audioDelta p =>
              cases p <;> simp [handleOaiEvent, oaiSent, createsFollowCommit]
          | error => rfl
          | speech_started => rfl
          | response_done => rfl
          | unrelated => rfl
      | tick i g =>
          rw [stepEv_tick r _ _ ha]
          by_cases h1 : r.bs.pending_audio && i
          · by_cases h2 : COMMIT_MIN_MS ≤ r.bs.user_ms_since_last_commit
            · simp [forcedTick, h1, h2, oaiSent, createsFollowCommit]
            · by_cases h3 : r.bs.had_audio && g <;>
                simp [forcedTick, h1, h2, h3, oaiSent, createsFollowCommit] <;>
                split <;> simp [oaiSent, createsFollowCommit]
          · by_cases h3 : r.bs.had_audio && g && r.bs.pending_audio
            · by_cases h2 : COMMIT_MIN_MS ≤ r.bs.user_ms_since_last_commit <;>
                simp [forcedTick, h1, h3, h2, oaiSent, createsFollowCommit]
            · simp [forcedTick, h1, h3, oaiSent, createsFollowCommit]
    · simp [stepEv, ha, oaiSent, createsFollowCommit]
  · intro p
    by_cases h : p.first_message = "" <;>
      simp [bootstrapCmds, isCreateCmd, h]

/- ===================== theorems: bot profile loading ============================ -/

/-- Looking up the key just set by setdefault succeeds. -/
theorem getCfg_setdefault_same (cfg : BotCfg) (k : String) (v : JVal) :
    (getCfg (setdefaultCfg cfg k v) k).isSome = true := by
  unfold setdefaultCfg
  split
  · assumption
  · unfold getCfg at *
    rw [List.find?_append]
    cases h : cfg.find? (fun pr => pr.1 == k) with
    | some pr => simp_all
    | none => simp [List.find?]

/-- setdefault preserves the presence of every key. -/
theorem getCfg_setdefault_mono (cfg : BotCfg) (k k' : String) (v : JVal)
    (h : (getCfg cfg k').isSome = true) :
    (getCfg (setdefaultCfg cfg k v) k').isSome = true := by
  unfold setdefaultCfg
  split
  · exact h
  · unfold getCfg at *
    rw [List.find?_append]
    cases hf : cfg.find? (fun pr => pr.1 == k') with
    | some pr => simp_all
    | none => simp_all

/-- After applyDefaults, all five mandatory keys are present. -/
theorem applyDefaults_keys (cfg : BotCfg) :
    hasRequiredKeys (applyDefaults cfg) = true := by
  unfold hasRequiredKeys applyDefaults
  simp only [Bool.and_eq_true]
  refine ⟨⟨⟨⟨?_, ?_⟩, ?_⟩, ?_⟩, ?_⟩
  · exact getCfg_setdefault_mono _ _ _ _ (getCfg_setdefault_mono _ _ _ _
      (getCfg_setdefault_mono _ _ _ _ (getCfg_setdefault_mono _ _ _ _
        (getCfg_setdefault_same _ _ _))))
  · exact getCfg_setdefault_mono _ _ _ _ (getCfg_setdefault_mono _ _ _ _
      (getCfg_setdefault_mono _ _ _ _ (getCfg_setdefault_same _ _ _)))
  · exact getCfg_setdefault_mono _ _ _ _ (getCfg_setdefault_mono _ _ _ _
      (getCfg_setdefault_same _ _ _))
  · exact getCfg_setdefault_mono _ _ _ _ (getCfg_setdefault_same _ _ _)
  · exact getCfg_setdefault_same _ _ _

/-- C10: `_load_bot_json` always returns a profile containing the keys voice,
temperature, system_prompt, model and vad — for every filesystem content,
every well-formed cache state and every slug (empty, unknown or mixed-case);
the cache stays well formed. When the bot's own file is missing it falls back
to the default bot's file, and when that is missing too the inline default
configuration is used. -/
theorem C10_load_bot_profile :
    (∀ fs defaultBot cache slug, cacheWF cache = true →
      hasRequiredKeys (load_bot_json fs defaultBot cache slug).1 = true ∧
      cacheWF (load_bot_json fs defaultBot cache slug).2 = true) ∧
    (∀ fs defaultBot slug,
      fs (normalizeSlug defaultBot slug) = none →
      (load_bot_json fs defaultBot [] slug).1 =
        applyDefaults
          ((if normalizeSlug defaultBot slug ≠ defaultBot then fs defaultBot
            else none).getD inlineDefaultCfg)) ∧
    (∀ fs defaultBot slug,
      fs (normalizeSlug defaultBot slug) = none → fs defaultBot = none →
      (load_bot_json fs defaultBot [] slug).1 =
        applyDefaults inlineDefaultCfg) := by
  refine ⟨?_, ?_, ?_⟩
  · intro fs defaultBot cache slug hwf
    unfold load_bot_json
    cases hfind : cache.find? (fun pr => pr.1 == normalizeSlug defaultBot slug) with
    | some pr =>
        simp only [hfind]
        have hmem := List.mem_of_find?_eq_some hfind
        have hk : hasRequiredKeys pr.2 = true := by
          have := (List.all_eq_true.mp hwf) pr hmem
          simpa using this
        exact ⟨hk, hwf⟩
    | none =>
        simp only [hfind]
        refine ⟨applyDefaults_keys _, ?_⟩
        unfold cacheWF at *
        rw [List.all_append]
        simp [hwf, applyDefaults_keys]
  · intro fs defaultBot slug hnone
    unfold load_bot_json
    simp only [List.find?_nil, hnone]
  · intro fs defaultBot slug hnone hdef
    unfold load_bot_json
    by_cases hs : normalizeSlug defaultBot slug = defaultBot <;>
      simp only [List.find?_nil, hnone, hdef, hs, ne_eq, not_true_eq_false,
        not_false_eq_true, if_true, if_false, ite_true, ite_false, Option.getD]

/-- C10 witness: an unknown, mixed-case, padded slug on an empty filesystem
with an empty cache still yields a complete profile from the inline default. -/
theorem C10_load_bot_profile_witness :
    hasRequiredKeys
      (load_bot_json (fun _ => none) ("sundin") [] ("  UNKNOWN Bot ")).1 = true ∧
    (load_bot_json (fun _ => none) ("sundin") [] ("  UNKNOWN Bot ")).1 =
      applyDefaults inlineDefaultCfg :=
  ⟨(C10_load_bot_profile.1 (fun _ => none) ("sundin") [] ("  UNKNOWN Bot ")
      (by decide)).1,
   C10_load_bot_profile.2.2 (fun _ => none) ("sundin") ("  UNKNOWN Bot ")
      rfl rfl⟩

/- ===================== theorems: codec transcoder =============================== -/

/-- Decoding the complemented positive code word of segment seg and quantized
mantissa q recovers the biased quantization level, checked on all 128 codes. -/
theorem pack_decode_pos : ∀ seg < 8, ∀ q < 16,
    ulaw2lin16 (((seg <<< 4) ||| q) ^^^ 0xFF) =
      ((8 * q + 132 : Nat) : Int) * 2 ^ seg - 132 := by decide

/-- Same for the negative code words (mask 0x7F). -/
theorem pack_decode_neg : ∀ seg < 8, ∀ q < 16,
    ulaw2lin16 (((seg <<< 4) ||| q) ^^^ 0x7F) =
      132 - ((8 * q + 132 : Nat) : Int) * 2 ^ seg := by decide

/-- μ-law round trip error bound: for every 16-bit sample the decoded value is
within 644 of the original (the worst case is the clipped extreme -32768,
which decodes to -32124). -/
theorem muRT_bound (s : Int) (hlo : -32768 ≤ s) (hhi : s ≤ 32767) :
    (muRT s - s).natAbs ≤ 644 := by
  have h4 : Int.fdiv s 4 = s / 4 := Int.fdiv_eq_ediv _ (by norm_num)
  unfold muRT lin2ulawSample st_14linear2ulaw
  rw [h4]
  by_cases hs : s / 4 < 0
  · simp only [if_pos hs]
    by_cases hcl : 8159 < (-(s / 4)).toNat
    · simp only [if_pos hcl]
      rw [show ulawSearch (8159 + 33) = 8 from rfl]
      rw [if_pos (by norm_num : (8 : Nat) ≤ 8)]
      rw [show (0x7F ^^^ 0x7F : Nat) = 0 from rfl]
      rw [show ulaw2lin16 0 = -32124 from rfl]
      omega
    · simp only [if_neg hcl]
      unfold ulawSearch
      split_ifs with hb1 hb2 hb3 hb4 hb5 hb6 hb7 hb8
      all_goals
        first
        | (exfalso; omega)
        | (rw [show (0x7F ^^^ 0x7F : Nat) = 0 from rfl,
              show ulaw2lin16 0 = -32124 from rfl]
           omega)
        | (rw [Nat.shiftRight_eq_div_pow, show (0xF : Nat) = 2 ^ 4 - 1 from rfl,
              Nat.and_pow_two_sub_one_eq_mod,
              pack_decode_neg _ (by norm_num) _ (Nat.mod_lt _ (by norm_num))]
           norm_num
           omega)
  · simp only [if_neg hs]
    by_cases hcl : 8159 < (s / 4).toNat
    · simp only [if_pos hcl]
      rw [show ulawSearch (8159 + 33) = 8 from rfl]
      rw [if_pos (by norm_num : (8 : Nat) ≤ 8)]
      rw [show (0x7F ^^^ 0xFF : Nat) = 0x80 from rfl]
      rw [show ulaw2lin16 0x80 = 32124 from rfl]
      omega
    · simp only [if_neg hcl]
      unfold ulawSearch
      split_ifs with hb1 hb2 hb3 hb4 hb5 hb6 hb7 hb8
      all_goals
        first
        | (exfalso; omega)
        | (rw [show (0x7F ^^^ 0xFF : Nat) = 0x80 from rfl,
              show ulaw2lin16 0x80 = 32124 from rfl]
           omega)
        | (rw [Nat.shiftRight_eq_div_pow, show (0xF : Nat) = 2 ^ 4 - 1 from rfl,
              Nat.and_pow_two_sub_one_eq_mod,
              pack_decode_pos _ (by norm_num) _ (Nat.mod_lt _ (by norm_num))]
           norm_num
           omega)

/-- The silence byte round trip: encoding sample 0 gives 0xFF and back 0. -/
theorem muRT_zero : muRT 0 = 0 := by decide

/-- A packed complemented code word is always a byte. -/
theorem pack_lt (seg q mask : Nat) (hseg : seg < 8) (hmask : mask < 256) :
    ((seg <<< 4) ||| (q &&& 0xF)) ^^^ mask < 256 := by
  have ha : seg <<< 4 < 2 ^ 8 := by
    rw [Nat.shiftLeft_eq, show (2 : Nat) ^ 4 = 16 from rfl]
    omega
  have hb : q &&& 0xF < 2 ^ 8 :=
    lt_of_le_of_lt Nat.and_le_right (by norm_num)
  have h1 : (seg <<< 4) ||| (q &&& 0xF) < 2 ^ 8 := Nat.or_lt_two_pow ha hb
  have h2 : mask < 2 ^ 8 := by norm_num at hmask ⊢; exact hmask
  have := Nat.xor_lt_two_pow h1 h2
  norm_num at this
  exact this

/-- Every μ-law code produced is a byte. -/
theorem lin2ulawSample_lt (s : Int) : lin2ulawSample s < 256 := by
  simp only [lin2ulawSample, st_14linear2ulaw]
  split_ifs with h1 h2 h3
  all_goals
    first
    | decide
    | (refine pack_lt _ _ _ ?_ ?_ <;> omega)

/-- Reading back a staged 32-bit sample is the identity. -/
theorem setSample32_getSample32 (x : Int) : setSample32 (getSample32 x) = x := by
  unfold setSample32 getSample32
  rw [Int.fdiv_eq_ediv _ (by norm_num)]
  omega

/-- The d = 1 emission of the upsampler is the floor-average of the two
staged samples. -/
theorem avg_step (p c : Int) :
    setSample32 ((getSample32 p * 1 + getSample32 c * (2 - 1)).tdiv 2) =
      Int.fdiv (p + c) 2 := by
  unfold setSample32 getSample32
  rw [show p * 65536 * 1 + c * 65536 * (2 - 1) = (p + c) * 32768 * 2 by ring,
    Int.mul_tdiv_cancel _ (by norm_num),
    Int.fdiv_eq_ediv _ (by norm_num), Int.fdiv_eq_ediv _ (by norm_num)]
  omega

/-- One step of the 2:1 downsampler from the post-emit phase d = -1: the new
sample is emitted unchanged. -/
theorem ratecvLoop_down_cons1 (s : Int) (rest : List Int) (cur : Int) :
    ratecvLoop 2 1 (s :: rest) cur (-1) = s :: ratecvLoop 2 1 rest s (-2) := by
  simp [ratecvLoop, ratecvEmit, setSample32_getSample32]

/-- One step of the 2:1 downsampler from phase d = -2: the sample is read and
skipped. -/
theorem ratecvLoop_down_cons2 (t : Int) (rest : List Int) (cur : Int) :
    ratecvLoop 2 1 (t :: rest) cur (-2) = ratecvLoop 2 1 rest t (-1) := by
  simp [ratecvLoop, ratecvEmit]

/-- First step of the 1:2 upsampler (d = -2): the first sample is emitted. -/
theorem ratecvLoop_up_cons0 (s : Int) (rest : List Int) (cur : Int) :
    ratecvLoop 1 2 (s :: rest) cur (-2) = s :: ratecvLoop 1 2 rest s (-1) := by
  simp [ratecvLoop, ratecvEmit, setSample32_getSample32,
    Int.mul_tdiv_cancel]

/-- Steady-state step of the 1:2 upsampler (d = -1): emit the floor-average of
the previous and the new sample, then the new sample. -/
theorem ratecvLoop_up_cons1 (c : Int) (rest : List Int) (p : Int) :
    ratecvLoop 1 2 (c :: rest) p (-1) =
      Int.fdiv (p + c) 2 :: c :: ratecvLoop 1 2 rest c (-1) := by
  simp [ratecvLoop, ratecvEmit, setSample32_getSample32, Int.mul_tdiv_cancel]
  unfold setSample32 getSample32
  rw [show p * 65536 + c * 65536 = (p + c) * 32768 * 2 by ring,
    Int.mul_tdiv_cancel _ (by norm_num),
    Int.fdiv_eq_ediv _ (by norm_num), Int.fdiv_eq_ediv _ (by norm_num)]
  omega

/-- The 2:1 loop from phase -1 keeps exactly the even-indexed samples. -/
theorem ratecvLoop_down_evens (l : List Int) :
    ∀ cur : Int, ratecvLoop 2 1 l cur (-1) = evens l := by
  induction l using evens.induct with
  | case1 => intro cur; rfl
  | case2 a =>
      intro cur
      rw [ratecvLoop_down_cons1]
      rfl
  | case3 a b rest ih =>
      intro cur
      rw [ratecvLoop_down_cons1, ratecvLoop_down_cons2, ih b]
      rfl

/-- ratecv at 16000 → 8000 is exactly the even-index subsequence. -/
theorem ratecv_down (l : List Int) : ratecv l 16000 8000 = evens l := by
  have hg : ratecv l 16000 8000 = ratecvLoop 2 1 l 0 (-1) := by
    unfold ratecv
    norm_num
  rw [hg, ratecvLoop_down_evens]

/-- The 1:2 loop from phase -1 produces the interpolated pairs. -/
theorem ratecvLoop_up_pairs (rest : List Int) :
    ∀ p : Int, ratecvLoop 1 2 rest p (-1) = upPairs p rest := by
  induction rest with
  | nil => intro p; rfl
  | cons c r2 ih =>
      intro p
      rw [ratecvLoop_up_cons1, ih c]
      rfl

/-- ratecv at 8000 → 16000 is exactly the interleaved interpolation. -/
theorem ratecv_up (l : List Int) : ratecv l 8000 16000 = upsampleSpec l := by
  have hg : ratecv l 8000 16000 = ratecvLoop 1 2 l 0 (-2) := by
    unfold ratecv
    norm_num
  rw [hg]
  cases l with
  | nil => rfl
  | cons s rest =>
      rw [ratecvLoop_up_cons0, ratecvLoop_up_pairs]
      rfl

/-- Indexing evens reads the even index of the original list. -/
theorem evens_getD (l : List Int) : ∀ k, (evens l).getD k 0 = l.getD (2 * k) 0 := by
  induction l using evens.induct with
  | case1 => intro k; cases k <;> rfl
  | case2 a =>
      intro k
      cases k with
      | zero => rfl
      | succ k => cases k <;> rfl
  | case3 a b rest ih =>
      intro k
      cases k with
      | zero => rfl
      | succ k =>
          show (evens rest).getD k 0 = _
          rw [ih k]
          rw [show 2 * (k + 1) = 2 * k + 1 + 1 by ring]
          rfl

/-- Length of the even-index subsequence. -/
theorem evens_length (l : List Int) : (evens l).length = (l.length + 1) / 2 := by
  induction l using evens.induct with
  | case1 => rfl
  | case2 a => simp [evens]
  | case3 a b rest ih =>
      show (evens rest).length + 1 = _
      rw [ih]
      simp only [List.length_cons]
      omega

/-- The sample entries of the interpolated tail sit at odd indices. -/
theorem upPairs_getD_odd (l : List Int) :
    ∀ (p : Int) (j : Nat), (upPairs p l).getD (2 * j + 1) 0 = l.getD j 0 := by
  induction l with
  | nil => intro p j; cases j <;> rfl
  | cons c r2 ih =>
      intro p j
      cases j with
      | zero => rfl
      | succ j =>
          show (upPairs c r2).getD (2 * (j + 1) + 1 - 2) 0 = r2.getD j 0
          rw [show 2 * (j + 1) + 1 - 2 = 2 * j + 1 by ring_nf; omega]
          exact ih c j

/-- The averaged entries of the interpolated tail sit at even indices. -/
theorem upPairs_getD_avg (rest : List Int) :
    ∀ (s : Int) (j : Nat), j < rest.length →
      (upPairs s rest).getD (2 * j) 0 =
        Int.fdiv ((s :: rest).getD j 0 + (s :: rest).getD (j + 1) 0) 2 := by
  induction rest with
  | nil => intro s j hj; simp at hj
  | cons c r2 ih =>
      intro s j hj
      cases j with
      | zero => rfl
      | succ j =>
          show (upPairs c r2).getD (2 * (j + 1) - 2) 0 = _
          rw [show 2 * (j + 1) - 2 = 2 * j by ring_nf; omega]
          rw [ih c j (by simpa using hj)]
          rfl

/-- Length of the interpolated tail. -/
theorem upPairs_length (l : List Int) :
    ∀ p : Int, (upPairs p l).length = 2 * l.length := by
  induction l with
  | nil => intro p; rfl
  | cons c r2 ih =>
      intro p
      show (upPairs c r2).length + 1 + 1 = _
      rw [ih c]
      simp only [List.length_cons]
      omega

/-- Length of the upsampled output. -/
theorem upsampleSpec_length (q : List Int) :
    (upsampleSpec q).length = if q.length = 0 then 0 else 2 * q.length - 1 := by
  cases q with
  | nil => rfl
  | cons s rest =>
      show (upPairs s rest).length + 1 = _
      rw [upPairs_length]
      simp only [List.length_cons]
      split <;> omega

/-- Even indices of the upsampled output read the source directly. -/
theorem upsampleSpec_getD_even (q : List Int) (k : Nat) :
    (upsampleSpec q).getD (2 * k) 0 = q.getD k 0 := by
  cases q with
  | nil => cases k <;> rfl
  | cons s rest =>
      cases k with
      | zero => rfl
      | succ k =>
          show (upPairs s rest).getD (2 * (k + 1) - 1) 0 = rest.getD k 0
          rw [show 2 * (k + 1) - 1 = 2 * k + 1 by omega]
          exact upPairs_getD_odd rest s k

/-- Odd indices of the upsampled output are floor-averages of source
neighbours. -/
theorem upsampleSpec_getD_odd (q : List Int) (k : Nat)
    (h : 2 * k + 1 < (upsampleSpec q).length) :
    (upsampleSpec q).getD (2 * k + 1) 0 =
      Int.fdiv (q.getD k 0 + q.getD (k + 1) 0) 2 := by
  cases q with
  | nil => simp [upsampleSpec] at h
  | cons s rest =>
      have hlen : (upsampleSpec (s :: rest)).length = 2 * rest.length + 1 := by
        show (upPairs s rest).length + 1 = _
        rw [upPairs_length]
      rw [hlen] at h
      have hk : k < rest.length := by omega
      show (upPairs s rest).getD (2 * k) 0 = _
      exact upPairs_getD_avg rest s k hk

/-- getD through the μ-law round-trip map (muRT fixes the default 0). -/
theorem getD_map_muRT (l : List Int) :
    ∀ k, (l.map muRT).getD k 0 = muRT (l.getD k 0) := by
  induction l with
  | nil =>
      intro k
      simp [muRT_zero]
  | cons a l ih =>
      intro k
      cases k with
      | zero => rfl
      | succ k => exact ih k

/-- Serializing samples to little-endian bytes and parsing them back is the
identity on 16-bit samples. -/
theorem bytes_samples_roundtrip (l : List Int)
    (h : ∀ x ∈ l, -32768 ≤ x ∧ x ≤ 32767) :
    bytesToPcm16 (pcm16ToBytes l) = some l := by
  induction l with
  | nil => rfl
  | cons a l ih =>
      have ha := h a (by simp)
      have ih' := ih (fun x hx => h x (by simp [hx]))
      show bytesToPcm16 ((a % 65536).toNat % 256 ::
        (a % 65536).toNat / 256 :: pcm16ToBytes l) = _
      simp only [bytesToPcm16, ih', Option.map_some']
      have hb : toInt16 ((a % 65536).toNat % 256 % 256 +
          256 * ((a % 65536).toNat / 256 % 256)) = a := by
        unfold toInt16
        split <;> omega
      rw [hb]

/-- Byte length of the PCM16 serialization. -/
theorem pcm16ToBytes_length (l : List Int) :
    (pcm16ToBytes l).length = 2 * l.length := by
  induction l with
  | nil => rfl
  | cons a l ih =>
      show ((pcm16ToBytes (a :: l))).length = _
      simp only [pcm16ToBytes] at ih ⊢
      simp [ih]
      omega

/-- Every sample read from a 16-bit signal (default 0 outside) is in range. -/
theorem getD_range (samples : List Int)
    (hin : ∀ x ∈ samples, -32768 ≤ x ∧ x ≤ 32767) (i : Nat) :
    -32768 ≤ samples.getD i 0 ∧ samples.getD i 0 ≤ 32767 := by
  by_cases hi : i < samples.length
  · have hmem : samples.getD i 0 ∈ samples := by
      rw [List.getD_eq_getElem?_getD, List.getElem?_eq_getElem hi]
      exact List.getElem_mem hi
    exact hin _ hmem
  · rw [List.getD_eq_getElem?_getD, List.getElem?_eq_none (by omega)]
    norm_num

/-- C6: the 16 kHz PCM16 → μ-law 8 kHz → 16 kHz round trip through
pcm16_16k_to_mulaw8k_b64 and mulaw8k_b64_to_pcm16_16k reproduces the input
within the known error bounds, for every 16-bit input signal: the output is
the upsampling of the μ-law round trip of the even samples; even output
samples differ from the input by at most the μ-law quantization bound 644;
odd output samples differ by at most 644 plus the signal's own linear
interpolation deviation at that position (the inherent resampling error);
both conversions are total functions of their input (hence pure and
deterministic) and accept arbitrary frame lengths, with the stated output
lengths. -/
theorem C6_codec_roundtrip (samples : List Int)
    (hin : ∀ x ∈ samples, -32768 ≤ x ∧ x ≤ 32767) :
    roundTrip (pcm16ToBytes samples) =
      some (pcm16ToBytes (upsampleSpec ((evens samples).map muRT))) ∧
    (upsampleSpec ((evens samples).map muRT)).length =
      (if samples.length = 0 then 0 else 2 * ((samples.length + 1) / 2) - 1) ∧
    (∀ k, 2 * k < (upsampleSpec ((evens samples).map muRT)).length →
      ((upsampleSpec ((evens samples).map muRT)).getD (2 * k) 0 -
        samples.getD (2 * k) 0).natAbs ≤ 644) ∧
    (∀ k, 2 * k + 1 < (upsampleSpec ((evens samples).map muRT)).length →
      ((upsampleSpec ((evens samples).map muRT)).getD (2 * k + 1) 0 -
        samples.getD (2 * k + 1) 0).natAbs ≤ 644 + interpDev samples k) ∧
    (∀ ulaw : List Nat, (∀ b ∈ ulaw, b < 256) →
      (mulaw8k_b64_to_pcm16_16k (b64encode ulaw)).length =
        (if ulaw.length = 0 then 0 else 2 * (2 * ulaw.length - 1))) := by
  refine ⟨?_, ?_, ?_, ?_, ?_⟩
  · unfold roundTrip pcm16_16k_to_mulaw8k_b64 mulaw8k_b64_to_pcm16_16k
    rw [bytes_samples_roundtrip samples hin]
    simp only [Option.map_some']
    rw [ratecv_down]
    rw [b64_roundtrip _ (by
      intro b hb
      obtain ⟨x, _, hx⟩ := List.mem_map.mp hb
      rw [← hx]
      exact lin2ulawSample_lt x)]
    rw [List.map_map, ratecv_up]
    rfl
  · rw [upsampleSpec_length, List.length_map, evens_length]
    split_ifs <;> omega
  · intro k hk
    rw [upsampleSpec_getD_even, getD_map_muRT, evens_getD]
    have hx := getD_range samples hin (2 * k)
    exact muRT_bound _ hx.1 hx.2
  · intro k hk
    rw [upsampleSpec_getD_odd _ _ hk, getD_map_muRT, getD_map_muRT,
      evens_getD, evens_getD, show 2 * (k + 1) = 2 * k + 2 by ring]
    unfold interpDev
    have h1 := muRT_bound _ (getD_range samples hin (2 * k)).1
      (getD_range samples hin (2 * k)).2
    have h2 := muRT_bound _ (getD_range samples hin (2 * k + 2)).1
      (getD_range samples hin (2 * k + 2)).2
    rw [Int.fdiv_eq_ediv _ (by norm_num), Int.fdiv_eq_ediv _ (by norm_num)]
    omega
  · intro ulaw hu
    unfold mulaw8k_b64_to_pcm16_16k
    rw [b64_roundtrip _ hu, ratecv_up, pcm16ToBytes_length,
      upsampleSpec_length, List.length_map]
    split_ifs <;> omega

/-- C6 witness: the concrete synthetic tone satisfies the round-trip bounds
at concrete positions. -/
theorem C6_codec_roundtrip_witness :
    roundTrip (pcm16ToBytes toneSamples) =
      some (pcm16ToBytes (upsampleSpec ((evens toneSamples).map muRT))) ∧
    ((upsampleSpec ((evens toneSamples).map muRT)).getD 2 0 -
      toneSamples.getD 2 0).natAbs ≤ 644 ∧
    ((upsampleSpec ((evens toneSamples).map muRT)).getD 3 0 -
      toneSamples.getD 3 0).natAbs ≤ 644 + interpDev toneSamples 1 := by
  have h := C6_codec_roundtrip toneSamples (by decide)
  refine ⟨h.1, ?_, ?_⟩
  · have := h.2.2.1 1 (by decide)
    simpa using this
  · have := h.2.2.2.1 1 (by decide)
    simpa using this
